import Mathlib

/- Verification of the shape interpreter in src/rt/rust_shape.cpp: structural
comparison, tagged-union size computation, and byte-string logging, embedded
shallowly over a structured view of shape streams and live data. -/

namespace shape

/- Comparison-mode constants, rust_shape.cpp lines 20-22. -/

def CMP_EQ : Nat := 0

def CMP_LT : Nat := 1

def CMP_LE : Nat := 2

/-- Modelled from the spec: SizeAlign from rust_shape.h (not in src), a
(size, alignment) pair. -/
structure size_align where
  size : Nat
  alignment : Nat
deriving DecidableEq, Repr

/-- Modelled from the spec: align_to from rust_shape.h (not in src), padding
a running size up to a multiple of an alignment. -/
def align_to (s a : Nat) : Nat := if a = 0 then s else a * ((s + a - 1) / a)

/-- Modelled from the spec: size_align::add from rust_shape.h (not in src).
It adds an incoming size and takes the max of the two alignments; padding is
not done here but explicitly at the call sites in rust_shape.cpp. -/
def size_align.add (x : size_align) (s a : Nat) : size_align :=
  ⟨x.size + s, max x.alignment a⟩

/-- Convenience wrapper applying size_align.add to a whole pair. -/
def size_align.addSA (x y : size_align) : size_align := x.add y.size y.alignment

/-- Loop body of size_of::walk_struct1 after the first field: struct_sa is
the accumulator and sa is the walker's sa register, which at the padding
step still holds the previously walked field's result. -/
def walk_struct1_go (struct_sa sa : size_align) : List size_align → size_align
  | [] => struct_sa
  | f :: fs =>
      walk_struct1_go
        ⟨align_to struct_sa.size sa.alignment + f.size,
         max struct_sa.alignment f.alignment⟩ f fs

/-- size_of::walk_struct1 (rust_shape.cpp lines 141-156) over the list of
the fields' (size, alignment) walk results: the accumulator starts at (0,1);
before every field but the first the running size is padded by align_to with
the alignment held in the walker's sa register (the previous field's); then
the field's size is added and the alignments are maxed. -/
def walk_struct1 : List size_align → size_align
  | [] => ⟨0, 1⟩
  | f :: fs => walk_struct1_go (size_align.addSA ⟨0, 1⟩ f) f fs

/-- Modelled from the spec: sizeof(tag_variant_t), the discriminant's size;
the spec's testable-properties section uses 4. -/
def tag_variant_t_size : Nat := 4

/-- Modelled from the spec: rust_alignof of tag_align_t, the discriminant's
alignment; the spec's testable-properties section uses 4. -/
def tag_align_t_align : Nat := 4

/-- Modelled from the spec: tag_info from rust_shape.h (not in src): the
variant count, the largest-variants table (each id resolved through
get_variant_sp to that variant's field list, given here directly as the
fields' (size, alignment) walk results), and the memoized tag_sa cache,
whose is_set test is modelled as Option.isSome. -/
structure tag_info where
  variant_count : Nat
  largest_variants : List (List size_align)
  tag_sa : Option size_align
deriving DecidableEq, Repr

/-- Loop of size_of::compute_tag_size (rust_shape.cpp lines 100-124): each
id in the largest-variants table has its variant sized as a struct over its
fields, and the result replaces the accumulator exactly when strictly larger
by size. -/
def compute_tag_size_loop (acc : size_align) : List (List size_align) → size_align
  | [] => acc
  | v :: vs =>
      compute_tag_size_loop
        (if acc.size < (walk_struct1 v).size then walk_struct1 v else acc) vs

/-- size_of::compute_tag_size (rust_shape.cpp lines 92-133): reuse the cache
when set; otherwise fold the largest-variants table from (0,0); with exactly
one variant a zero computed size is forced to (1,1); with any other variant
count the discriminant's size and alignment are added on top; the outcome is
stored in the tag_sa cache. -/
def compute_tag_size (tinfo : tag_info) : tag_info :=
  match tinfo.tag_sa with
  | some _ => tinfo
  | none =>
      let best := compute_tag_size_loop ⟨0, 0⟩ tinfo.largest_variants
      let final :=
        if tinfo.variant_count = 1 then
          (if best.size = 0 then ⟨1, 1⟩ else best)
        else best.add tag_variant_t_size tag_align_t_align
      { tinfo with tag_sa := some final }

/-- cmp::cmp_number (rust_shape.cpp lines 218-221): the three-way ordering
of two scalars. -/
def cmp_number (a b : Int) : Int :=
  if a < b then -1 else if a = b then 0 else 1

/-- cmp::cmp_two_pointers (rust_shape.cpp lines 204-211): compare the first
words; only on a tie compare the second words. -/
def cmp_two_pointers (a1 a2 b1 b2 : Int) : Int :=
  let r := cmp_number a1 b1
  if r = 0 then cmp_number a2 b2 else r

/-- Floating-point scalar as the compare walk sees it: the shape grammar
includes f32 and f64 (the walk_number1 specializations at rust_shape.cpp
lines 86-89), whose C++ comparison operators follow IEEE semantics: the
non-NaN values are totally ordered (represented here by an ordered
stand-in) and NaN is unordered and unequal to everything, itself
included. -/
inductive FloatVal where
  | nan
  | fin (v : Int)
deriving DecidableEq, Repr

/-- IEEE less-than for a float leaf: false whenever either side is NaN. -/
def flt_lt : FloatVal → FloatVal → Bool
  | .fin a, .fin b => decide (a < b)
  | _, _ => false

/-- IEEE equality for a float leaf: false whenever either side is NaN, so
NaN is not equal to itself. -/
def flt_eq : FloatVal → FloatVal → Bool
  | .fin a, .fin b => decide (a = b)
  | _, _ => false

/-- cmp::cmp_number (rust_shape.cpp lines 218-221) instantiated at the
float and double leaves: with both operands NaN neither the less-than nor
the equality test holds, so the three-way result is 1. -/
def cmp_number_float (a b : FloatVal) : Int :=
  if flt_lt a b then -1 else if flt_eq a b then 0 else 1

/-- Structured view of one live instance together with its shape: integer
numeric leaves (u8 through i64, whose ordering is total), float numeric
leaves (f32/f64 with IEEE comparison), opaque word pairs (fn and obj
values), type-descriptor slots, one dereference of an indirection (box,
uniq, rptr, trait), structs, tagged unions carrying the live discriminant
and the selected variant's payload, vectors (also slices and fixed vectors,
which compare just like vecs), and destructor-bearing resources holding the
opaque destructor reference pair and the trailing fields. -/
inductive Val where
  | num (n : Int)
  | flt (x : FloatVal)
  | fnval (w1 w2 : Int)
  | tydesc (p : Int)
  | boxed (v : Val)
  | tup (fields : List Val)
  | tagged (disc : Int) (payload : List Val)
  | vec (elems : List Val)
  | resval (d1 d2 : Int) (fields : List Val)

mutual

/-- Dispatch of the cmp walk (rust_shape.cpp class cmp, lines 171-375) over
two lockstep instances: numbers by cmp_number; fn and obj values by
cmp_two_pointers; tydesc slots as one opaque pointer; indirections by one
dereference propagating the sub-result; structs field by field; tags by the
discriminants first and the shared selected variant only on a tie; vectors
element-wise with a length fallback; resources by the destructor reference
pair only, trailing fields ignored (cmp::walk_res2, lines 357-360).
Mismatched constructors are an undetected contract violation in the code
and are mapped to 0 here. -/
def cmpVal : Val → Val → Int
  | .num a, .num b => cmp_number a b
  | .flt a, .flt b => cmp_number_float a b
  | .fnval a1 a2, .fnval b1 b2 => cmp_two_pointers a1 a2 b1 b2
  | .tydesc a, .tydesc b => cmp_number a b
  | .boxed a, .boxed b => cmpVal a b
  | .tup xs, .tup ys => cmpList xs ys
  | .tagged d xs, .tagged e ys =>
      let r := cmp_number d e
      if r = 0 then cmpList xs ys else r
  | .vec xs, .vec ys =>
      let r := cmpList xs ys
      if r = 0 then cmp_number xs.length ys.length else r
  | .resval a1 a2 _, .resval b1 b2 _ => cmp_two_pointers a1 a2 b1 b2
  | _, _ => 0

/-- Lockstep loop shared by cmp::walk_vec2, cmp::walk_struct2 and
cmp::walk_variant2: walk paired elements in order while the running result
is zero, stopping as soon as either sequence is exhausted (the loop guards
compare both cursors against their ends), so elements beyond the shorter
length are never inspected. -/
def cmpList : List Val → List Val → Int
  | x :: xs, y :: ys =>
      let r := cmpVal x y
      if r = 0 then cmpList xs ys else r
  | _, _ => 0

end

mutual

/-- Test that an instance contains no NaN float leaf anywhere, the region
on which the numeric leaf comparisons are reflexive. -/
def noNanVal : Val → Bool
  | .num _ => true
  | .flt x => decide (x ≠ FloatVal.nan)
  | .fnval _ _ => true
  | .tydesc _ => true
  | .boxed v => noNanVal v
  | .tup xs => noNanList xs
  | .tagged _ xs => noNanList xs
  | .vec xs => noNanList xs
  | .resval _ _ fs => noNanList fs

/-- Test that a list of instances contains no NaN float leaf. -/
def noNanList : List Val → Bool
  | [] => true
  | x :: xs => noNanVal x && noNanList xs

end

/-- Loop of cmp::walk_struct2 (rust_shape.cpp lines 349-355) with the shape
cursor made explicit: fields are walked while the running result is zero and
fields remain; the returned list is what the loop itself left unconsumed
when it stopped early. -/
def walk_struct2_loop (r : Int) : List (Val × Val) → Int × List (Val × Val)
  | [] => (r, [])
  | p :: ps =>
      if r = 0 then walk_struct2_loop (cmpVal p.1 p.2) ps else (r, p :: ps)

/-- Modelled from the spec: ctxt::walk_struct0 in rust_shape.h (not in src)
reads the struct body's end offset before dispatching to the operation's
walk_struct2 and sets the shape cursor to that end afterwards, so the
struct's shape bytes are consumed in full no matter where the loop stopped
(spec section 3 cursor invariant). -/
def walk_struct0_cmp (r : Int) (ps : List (Val × Val)) : Int × List (Val × Val) :=
  ((walk_struct2_loop r ps).1, [])

/-- shape_cmp_type entry point (rust_shape.cpp lines 486-501): runs one
compare walk over the two instances and maps its three-way result onto the
output byte according to cmp_type; a cmp_type outside the three modes hits
no switch case and leaves the output byte at its prior value old. -/
def shape_cmp_type (old : Int) (a b : Val) (cmp_type : Nat) : Int :=
  let c := cmpVal a b
  if cmp_type = CMP_EQ then (if c = 0 then 1 else 0)
  else if cmp_type = CMP_LT then (if c < 0 then 1 else 0)
  else if cmp_type = CMP_LE then (if c ≤ 0 then 1 else 0)
  else old

/-- Lowercase hexadecimal digit, as std::hex renders one. -/
def hexdigit (n : Nat) : Char :=
  if n < 10 then Char.ofNat (48 + n) else Char.ofNat (87 + n)

/-- Two lowercase hex digits, as produced under std::hex with setw(2) and
setfill('0') for a byte value. -/
def hex2 (c : Nat) : String := String.mk [hexdigit (c / 16), hexdigit (c % 16)]

/-- Modelled from the spec: isprint in the C locale applied to a byte read
through a signed char, true exactly for 0x20..0x7e; bytes at or above 0x80
read as negative and are not printable. -/
def isprint_byte (c : Nat) : Bool := 32 ≤ c && c ≤ 126

/-- Rendering of one byte by log::walk_string2 (rust_shape.cpp lines
386-400): two-character escapes for newline, carriage return, tab, backslash
and double quote; printable bytes pass through; any other nonzero byte
becomes a backslash-x hex escape; a zero byte fails the final `else if (ch)`
guard and emits nothing. -/
def walk_string2_char (c : Nat) : String :=
  if c = 10 then "\\n"
  else if c = 13 then "\\r"
  else if c = 9 then "\\t"
  else if c = 92 then "\\\\"
  else if c = 34 then "\\\""
  else if isprint_byte c then String.singleton (Char.ofNat c)
  else if c ≠ 0 then "\\x" ++ hex2 c
  else ""

/-- log::walk_string2 (rust_shape.cpp lines 380-405): emits the current
prefix, an opening double quote, each byte's rendering in order, and a
closing double quote. -/
def walk_string2 (pfx : String) (bytes : List Nat) : String :=
  pfx ++ "\"" ++ String.join (bytes.map walk_string2_char) ++ "\""

/- Shared helper lemmas. -/

mutual

theorem cmpVal_self : (v : Val) → noNanVal v = true → cmpVal v v = 0
  | .num a, _ => by simp [cmpVal, cmp_number]
  | .flt x, h => by
      cases x with
      | nan => simp [noNanVal] at h
      | fin q => simp [cmpVal, cmp_number_float, flt_lt, flt_eq]
  | .fnval a1 a2, _ => by simp [cmpVal, cmp_two_pointers, cmp_number]
  | .tydesc a, _ => by simp [cmpVal, cmp_number]
  | .boxed v, h => by
      simpa [cmpVal] using cmpVal_self v (by simpa [noNanVal] using h)
  | .tup xs, h => by
      simpa [cmpVal] using cmpList_self xs (by simpa [noNanVal] using h)
  | .tagged d xs, h => by
      simp [cmpVal, cmp_number, cmpList_self xs (by simpa [noNanVal] using h)]
  | .vec xs, h => by
      simp [cmpVal, cmpList_self xs (by simpa [noNanVal] using h), cmp_number]
  | .resval a1 a2 fs, _ => by simp [cmpVal, cmp_two_pointers, cmp_number]

theorem cmpList_self : (l : List Val) → noNanList l = true → cmpList l l = 0
  | [], _ => by simp [cmpList]
  | x :: xs, h => by
      have hx : noNanVal x = true := by
        have := h
        simp [noNanList, Bool.and_eq_true] at this
        exact this.1
      have hxs : noNanList xs = true := by
        have := h
        simp [noNanList, Bool.and_eq_true] at this
        exact this.2
      simp [cmpList, cmpVal_self x hx, cmpList_self xs hxs]

end

theorem walk_struct2_loop_stuck (r : Int) (h : r ≠ 0) :
    ∀ ps : List (Val × Val), (walk_struct2_loop r ps).1 = r := by
  intro ps
  cases ps with
  | nil => rfl
  | cons p ps => simp [walk_struct2_loop, h]

theorem walk_struct2_loop_append (ps qs : List (Val × Val))
    (h : (walk_struct2_loop 0 ps).1 ≠ 0) :
    (walk_struct2_loop 0 (ps ++ qs)).1 = (walk_struct2_loop 0 ps).1 := by
  induction ps with
  | nil => simp [walk_struct2_loop] at h
  | cons p ps ih =>
      have e : ∀ rs, walk_struct2_loop 0 (p :: rs) =
          walk_struct2_loop (cmpVal p.1 p.2) rs := by
        intro rs
        simp [walk_struct2_loop]
      rw [e] at h
      rw [List.cons_append, e (ps ++ qs), e ps]
      by_cases hc : cmpVal p.1 p.2 = 0
      · rw [hc] at h ⊢
        exact ih h
      · rw [walk_struct2_loop_stuck _ hc, walk_struct2_loop_stuck _ hc]

/- Claim theorems. -/

/-- C1: the entry point shape_cmp_type runs the compare walk once and maps
its three-way result to the output byte by mode: EQ yields nonzero output
exactly when the walk result is 0, LT when it is negative, LE when it is
nonpositive. -/
theorem shape_cmp_type_modes (old : Int) (a b : Val) :
    (shape_cmp_type old a b CMP_EQ = if cmpVal a b = 0 then 1 else 0) ∧
    (shape_cmp_type old a b CMP_LT = if cmpVal a b < 0 then 1 else 0) ∧
    (shape_cmp_type old a b CMP_LE = if cmpVal a b ≤ 0 then 1 else 0) := by
  refine ⟨rfl, ?_, ?_⟩ <;> simp [shape_cmp_type, CMP_EQ, CMP_LT, CMP_LE]

/-- C10: a cmp_type byte outside the three modes matches no switch case, so
the output byte keeps its prior value; the compare walk itself still runs
(its result is computed and then discarded). -/
theorem shape_cmp_type_bad_mode (old : Int) (a b : Val) (m : Nat)
    (h0 : m ≠ CMP_EQ) (h1 : m ≠ CMP_LT) (h2 : m ≠ CMP_LE) :
    shape_cmp_type old a b m = old := by
  simp [shape_cmp_type, h0, h1, h2]

/-- Witness for C10 at mode byte 3. -/
theorem shape_cmp_type_bad_mode_witness :
    shape_cmp_type 7 (.num 0) (.num 0) 3 = 7 :=
  shape_cmp_type_bad_mode 7 (.num 0) (.num 0) 3 (by decide) (by decide)
    (by decide)

/-- C4 counterexample: appending (1,1) then (4,4) to the accumulator yields
size 5 = align_to(1,1)+4 — the pad uses the first field's alignment — not
align_to(1,4)+4 = 8 as the claim states. -/
theorem walk_struct1_pad_cex :
    walk_struct1 [⟨1, 1⟩, ⟨4, 4⟩] = ⟨5, 4⟩ ∧
    align_to 1 4 + 4 = 8 ∧
    (walk_struct1 [⟨1, 1⟩, ⟨4, 4⟩]).size ≠ align_to 1 4 + 4 := by
  refine ⟨by decide, by decide, by decide⟩

/-- C4 amended: appending (s1,a1) then (s2,a2) to the accumulator (0,1)
yields alignment max(a1,a2) and size align_to(s1,a1)+s2 — the running size
is padded by the alignment still held in the walker's sa register, which is
the previous field's, not the incoming one. -/
theorem walk_struct1_two_fields (s1 a1 s2 a2 : Nat) (h : 1 ≤ a1) :
    walk_struct1 [⟨s1, a1⟩, ⟨s2, a2⟩] = ⟨align_to s1 a1 + s2, max a1 a2⟩ := by
  simp [walk_struct1, walk_struct1_go, size_align.addSA, size_align.add,
        Nat.max_eq_right h]

/-- Witness for the amended C4 at (1,1) and (4,4). -/
theorem walk_struct1_two_fields_witness :
    walk_struct1 [⟨1, 1⟩, ⟨4, 4⟩] = ⟨align_to 1 1 + 4, max 1 4⟩ :=
  walk_struct1_two_fields 1 1 4 4 (by decide)

/-- C7: resources compare by the opaque destructor-reference word pair only
— the first word, then the second word only on a tie — identically for any
trailing fields, which are never compared. -/
theorem cmp_walk_res2_shallow (a1 a2 b1 b2 : Int) (fs gs : List Val) :
    cmpVal (.resval a1 a2 fs) (.resval b1 b2 gs) =
      cmp_two_pointers a1 a2 b1 b2 ∧
    cmpVal (.resval a1 a2 fs) (.resval b1 b2 gs) =
      cmpVal (.resval a1 a2 []) (.resval b1 b2 []) ∧
    (cmp_number a1 b1 ≠ 0 →
      cmpVal (.resval a1 a2 fs) (.resval b1 b2 gs) = cmp_number a1 b1) ∧
    (cmp_number a1 b1 = 0 →
      cmpVal (.resval a1 a2 fs) (.resval b1 b2 gs) = cmp_number a2 b2) := by
  refine ⟨rfl, rfl, ?_, ?_⟩ <;> intro h <;>
    simp [cmpVal, cmp_two_pointers, h]

/-- Witness for C7: unequal second words with a tied first word and a
trailing field present on one side only. -/
theorem cmp_walk_res2_shallow_witness :
    cmpVal (.resval 1 2 [.num 9]) (.resval 1 3 []) = cmp_number 2 3 :=
  (cmp_walk_res2_shallow 1 2 1 3 [.num 9] []).2.2.2 (by decide)

/-- C8 counterexample: a NaN float leaf compared against itself yields the
three-way result 1, not 0 — neither the IEEE less-than nor the IEEE
equality test holds at (NaN, NaN) in cmp_number — so the EQ mode of the
entry point reports false for that instance. -/
theorem cmp_nan_not_reflexive :
    cmpVal (.flt .nan) (.flt .nan) = 1 ∧
    shape_cmp_type 0 (.flt .nan) (.flt .nan) CMP_EQ = 0 := by
  exact ⟨rfl, rfl⟩

/-- C8 amended: comparing any instance that contains no NaN float leaf
against itself yields the three-way result 0, and the EQ mode of the entry
point therefore reports true; at a NaN float leaf cmp_number is not
reflexive and the property fails. -/
theorem cmp_reflexive_no_nan (v : Val) (old : Int) (h : noNanVal v = true) :
    cmpVal v v = 0 ∧ shape_cmp_type old v v CMP_EQ = 1 := by
  have h0 := cmpVal_self v h
  exact ⟨h0, by simp [shape_cmp_type, CMP_EQ, h0]⟩

/-- Witness for the amended C8 at a struct holding an integer and a non-NaN
float leaf. -/
theorem cmp_reflexive_no_nan_witness :
    cmpVal (.tup [.num 3, .flt (.fin 2)]) (.tup [.num 3, .flt (.fin 2)]) = 0 ∧
    shape_cmp_type 9 (.tup [.num 3, .flt (.fin 2)])
      (.tup [.num 3, .flt (.fin 2)]) CMP_EQ = 1 :=
  cmp_reflexive_no_nan (.tup [.num 3, .flt (.fin 2)]) 9 (by decide)

/-- C5: once the running result of a compare walk is nonzero the struct and
variant field loops leave it unchanged — no further byte comparison affects
it — a result decided at some field is never overturned by appending more
fields, and the full struct walk leaves the shape cursor at the struct's end
for any field list, so repeated comparisons over the same shape stream are
independent of each other. -/
theorem cmp_decided_result_stable (r : Int) (ps qs : List (Val × Val)) :
    (r ≠ 0 → (walk_struct2_loop r ps).1 = r) ∧
    ((walk_struct2_loop 0 ps).1 ≠ 0 →
       (walk_struct2_loop 0 (ps ++ qs)).1 = (walk_struct2_loop 0 ps).1) ∧
    (walk_struct0_cmp r ps).2 = (walk_struct0_cmp 0 qs).2 := by
  exact ⟨fun h => walk_struct2_loop_stuck r h ps,
         walk_struct2_loop_append ps qs, rfl⟩

/-- Witness for C5 with a decided result 1 and one remaining field. -/
theorem cmp_decided_result_stable_witness :
    (walk_struct2_loop 1 [(.num 0, .num 5)]).1 = 1 :=
  (cmp_decided_result_stable 1 [(.num 0, .num 5)] []).1 (by decide)

theorem compute_tag_size_loop_mem (vs : List (List size_align)) :
    ∀ acc : size_align, compute_tag_size_loop acc vs = acc ∨
      compute_tag_size_loop acc vs ∈ vs.map walk_struct1 := by
  induction vs with
  | nil => exact fun acc => Or.inl rfl
  | cons v vs ih =>
      intro acc
      simp only [compute_tag_size_loop, List.map_cons, List.mem_cons]
      by_cases hc : acc.size < (walk_struct1 v).size
      · rw [if_pos hc]
        rcases ih (walk_struct1 v) with h | h
        · exact Or.inr (Or.inl h)
        · exact Or.inr (Or.inr h)
      · rw [if_neg hc]
        rcases ih acc with h | h
        · exact Or.inl h
        · exact Or.inr (Or.inr h)

theorem compute_tag_size_loop_ge (vs : List (List size_align)) :
    ∀ acc : size_align,
      acc.size ≤ (compute_tag_size_loop acc vs).size ∧
      ∀ v ∈ vs, (walk_struct1 v).size ≤ (compute_tag_size_loop acc vs).size := by
  induction vs with
  | nil =>
      intro acc
      exact ⟨le_refl _, by simp⟩
  | cons v vs ih =>
      intro acc
      simp only [compute_tag_size_loop, List.mem_cons]
      by_cases hc : acc.size < (walk_struct1 v).size
      · rw [if_pos hc]
        refine ⟨le_trans (le_of_lt hc) (ih _).1, ?_⟩
        rintro w (rfl | hw)
        · exact (ih _).1
        · exact (ih _).2 w hw
      · rw [if_neg hc]
        refine ⟨(ih _).1, ?_⟩
        rintro w (rfl | hw)
        · exact le_trans (le_of_not_lt hc) (ih _).1
        · exact (ih _).2 w hw

/-- C3: compute_tag_size reuses the cache when it is set; otherwise every id
in the largest-variants table has its variant sized as a struct over its
fields via walk_struct1, the strictly largest by size is kept (the kept pair
is the (0,0) start or one of the sized variants, and no sized variant
exceeds it), a single-variant union whose computed size is zero is forced to
(1,1), any other variant count adds the discriminant's size and alignment on
top, and the outcome is stored in the tag_sa cache. -/
theorem compute_tag_size_spec :
    (∀ (t : tag_info) (sa : size_align), t.tag_sa = some sa →
        compute_tag_size t = t) ∧
    (∀ t : tag_info, t.tag_sa = none →
        ∃ best : size_align,
          (best = ⟨0, 0⟩ ∨ best ∈ t.largest_variants.map walk_struct1) ∧
          (∀ v ∈ t.largest_variants, (walk_struct1 v).size ≤ best.size) ∧
          (compute_tag_size t).tag_sa = some
            (if t.variant_count = 1 then
               (if best.size = 0 then ⟨1, 1⟩ else best)
             else best.add tag_variant_t_size tag_align_t_align)) := by
  constructor
  · intro t sa h
    simp [compute_tag_size, h]
  · intro t h
    refine ⟨compute_tag_size_loop ⟨0, 0⟩ t.largest_variants,
            compute_tag_size_loop_mem t.largest_variants ⟨0, 0⟩,
            fun v hv => (compute_tag_size_loop_ge t.largest_variants ⟨0, 0⟩).2 v hv,
            ?_⟩
    simp [compute_tag_size, h]

/-- Witness for C3 at a single-variant union with one zero-field variant,
whose computed size 0 is forced to (1,1). -/
theorem compute_tag_size_spec_witness :
    ∃ best : size_align,
      (best = ⟨0, 0⟩ ∨
        best ∈ (tag_info.mk 1 [[]] none).largest_variants.map walk_struct1) ∧
      (∀ v ∈ (tag_info.mk 1 [[]] none).largest_variants,
        (walk_struct1 v).size ≤ best.size) ∧
      (compute_tag_size (tag_info.mk 1 [[]] none)).tag_sa = some
        (if (tag_info.mk 1 [[]] none).variant_count = 1 then
           (if best.size = 0 then ⟨1, 1⟩ else best)
         else best.add tag_variant_t_size tag_align_t_align) :=
  compute_tag_size_spec.2 (tag_info.mk 1 [[]] none) rfl

/-- C9: for a single-variant tag with nonzero computed payload size the
cached result is exactly the selected variant's struct (size, alignment):
no discriminant space is added and the (1,1) forcing does not fire, and the
kept pair is one of the sized variants. -/
theorem compute_tag_size_single_nonzero (t : tag_info)
    (hc : t.tag_sa = none) (h1 : t.variant_count = 1)
    (hnz : (compute_tag_size_loop ⟨0, 0⟩ t.largest_variants).size ≠ 0) :
    (compute_tag_size t).tag_sa =
      some (compute_tag_size_loop ⟨0, 0⟩ t.largest_variants) ∧
    compute_tag_size_loop ⟨0, 0⟩ t.largest_variants ∈
      t.largest_variants.map walk_struct1 := by
  constructor
  · simp [compute_tag_size, hc, h1, hnz]
  · rcases compute_tag_size_loop_mem t.largest_variants ⟨0, 0⟩ with h | h
    · rw [h] at hnz
      simp at hnz
    · exact h

/-- Witness for C9 at a single-variant union whose variant is one (4,4)
field. -/
theorem compute_tag_size_single_nonzero_witness :
    (compute_tag_size (tag_info.mk 1 [[⟨4, 4⟩]] none)).tag_sa =
      some (compute_tag_size_loop ⟨0, 0⟩ [[⟨4, 4⟩]]) ∧
    compute_tag_size_loop ⟨0, 0⟩ [[⟨4, 4⟩]] ∈
      (tag_info.mk 1 [[⟨4, 4⟩]] none).largest_variants.map walk_struct1 :=
  compute_tag_size_single_nonzero (tag_info.mk 1 [[⟨4, 4⟩]] none) rfl rfl
    (by decide)

theorem cmpList_ties_then_mismatch (i : Nat) :
    ∀ (xs ys : List Val) (h1 : i < xs.length) (h2 : i < ys.length),
      (∀ (j : Nat) (hj1 : j < xs.length) (hj2 : j < ys.length), j < i →
        cmpVal (xs.get ⟨j, hj1⟩) (ys.get ⟨j, hj2⟩) = 0) →
      cmpVal (xs.get ⟨i, h1⟩) (ys.get ⟨i, h2⟩) ≠ 0 →
      cmpList xs ys = cmpVal (xs.get ⟨i, h1⟩) (ys.get ⟨i, h2⟩) := by
  induction i with
  | zero =>
      intro xs ys h1 h2 hties hmis
      cases xs with
      | nil => simp at h1
      | cons x xs =>
          cases ys with
          | nil => simp at h2
          | cons y ys =>
              have hx : cmpVal x y ≠ 0 := hmis
              simp [cmpList, hx, List.get]
  | succ i ih =>
      intro xs ys h1 h2 hties hmis
      cases xs with
      | nil => simp at h1
      | cons x xs =>
          cases ys with
          | nil => simp at h2
          | cons y ys =>
              have h0 : cmpVal x y = 0 :=
                hties 0 (Nat.succ_pos _) (Nat.succ_pos _) (Nat.succ_pos _)
              have step : cmpList (x :: xs) (y :: ys) = cmpList xs ys := by
                simp [cmpList, h0]
              rw [step]
              exact ih xs ys (Nat.lt_of_succ_lt_succ h1)
                (Nat.lt_of_succ_lt_succ h2)
                (fun j hj1 hj2 hji =>
                  hties (j + 1) (Nat.succ_lt_succ hj1) (Nat.succ_lt_succ hj2)
                    (Nat.succ_lt_succ hji))
                hmis

theorem cmpList_all_ties :
    ∀ (xs ys : List Val),
      (∀ (j : Nat) (hj1 : j < xs.length) (hj2 : j < ys.length),
        cmpVal (xs.get ⟨j, hj1⟩) (ys.get ⟨j, hj2⟩) = 0) →
      cmpList xs ys = 0 := by
  intro xs
  induction xs with
  | nil =>
      intro ys h
      cases ys <;> rfl
  | cons x xs ih =>
      intro ys h
      cases ys with
      | nil => rfl
      | cons y ys =>
          have h0 : cmpVal x y = 0 := h 0 (Nat.succ_pos _) (Nat.succ_pos _)
          have ht := ih ys (fun j hj1 hj2 =>
            h (j + 1) (Nat.succ_lt_succ hj1) (Nat.succ_lt_succ hj2))
          simp [cmpList, h0, ht]

theorem cmpList_take :
    ∀ (xs ys : List Val),
      cmpList xs ys = cmpList (xs.take ys.length) (ys.take xs.length) := by
  intro xs
  induction xs with
  | nil =>
      intro ys
      cases ys <;> rfl
  | cons x xs ih =>
      intro ys
      cases ys with
      | nil => rfl
      | cons y ys =>
          simp only [List.length_cons, List.take_succ_cons]
          by_cases h : cmpVal x y = 0
          · simp [cmpList, h, ih ys]
          · simp [cmpList, h]

/-- C2: vector, slice and fixed-vector comparison walks paired elements in
order and the first non-tied pair decides the result; if every compared pair
ties, the result is the three-way comparison of the two lengths (an
equal-prefix shorter vector compares less); and the element loop depends
only on the two prefixes of the shorter length, never inspecting the longer
side's extra elements. -/
theorem cmp_walk_vec2_spec (xs ys : List Val) :
    (∀ (i : Nat) (h1 : i < xs.length) (h2 : i < ys.length),
       (∀ (j : Nat) (hj1 : j < xs.length) (hj2 : j < ys.length), j < i →
         cmpVal (xs.get ⟨j, hj1⟩) (ys.get ⟨j, hj2⟩) = 0) →
       cmpVal (xs.get ⟨i, h1⟩) (ys.get ⟨i, h2⟩) ≠ 0 →
       cmpVal (.vec xs) (.vec ys) = cmpVal (xs.get ⟨i, h1⟩) (ys.get ⟨i, h2⟩)) ∧
    ((∀ (j : Nat) (hj1 : j < xs.length) (hj2 : j < ys.length),
         cmpVal (xs.get ⟨j, hj1⟩) (ys.get ⟨j, hj2⟩) = 0) →
       cmpVal (.vec xs) (.vec ys) = cmp_number xs.length ys.length) ∧
    cmpList xs ys = cmpList (xs.take ys.length) (ys.take xs.length) := by
  have hvec : cmpVal (.vec xs) (.vec ys) =
      (if cmpList xs ys = 0 then cmp_number xs.length ys.length
       else cmpList xs ys) := rfl
  refine ⟨?_, ?_, cmpList_take xs ys⟩
  · intro i h1 h2 hties hmis
    have hl := cmpList_ties_then_mismatch i xs ys h1 h2 hties hmis
    rw [hvec, hl, if_neg hmis]
  · intro hties
    rw [hvec, cmpList_all_ties xs ys hties, if_pos rfl]

/-- Witness for C2: comparing byte sequences (1,3) against (1,2,3), the
mismatch at index 1 decides before the length fallback, giving the result
for 3 versus 2. -/
theorem cmp_walk_vec2_spec_witness :
    cmpVal (.vec [.num 1, .num 3]) (.vec [.num 1, .num 2, .num 3]) =
      cmpVal (Val.num 3) (Val.num 2) := by
  refine (cmp_walk_vec2_spec [.num 1, .num 3] [.num 1, .num 2, .num 3]).1 1
    (by decide) (by decide) ?_ (by decide)
  intro j hj1 hj2 hj
  have hj0 : j = 0 := by omega
  subst hj0
  exact rfl

/-- C6 counterexample: a byte-vector holding a single zero byte renders as
an empty quoted string — the zero byte is dropped entirely — not as the hex
escape the claim requires for a non-printable byte. -/
theorem walk_string2_nul_cex :
    walk_string2 "" [0] = "\"\"" ∧ walk_string2 "" [0] ≠ "\"\\x00\"" := by
  refine ⟨by decide, by decide⟩

/-- C6 amended: log renders a byte-vector as a double-quoted string in which
newline, carriage return, tab, backslash and double quote each become their
two-character escape, printable bytes pass through unchanged, every other
nonzero non-printable byte becomes a two-digit hex escape, a zero byte is
dropped and produces no output at all, and the example byte-vector renders
exactly as the claim's example states. -/
theorem walk_string2_escapes :
    (walk_string2_char 10 = "\\n" ∧ walk_string2_char 13 = "\\r" ∧
     walk_string2_char 9 = "\\t" ∧ walk_string2_char 92 = "\\\\" ∧
     walk_string2_char 34 = "\\\"") ∧
    (∀ c : Nat, isprint_byte c = true → c ≠ 92 → c ≠ 34 →
       walk_string2_char c = String.singleton (Char.ofNat c)) ∧
    (∀ c : Nat, isprint_byte c = false → c ≠ 0 → c ≠ 10 → c ≠ 13 → c ≠ 9 →
       walk_string2_char c = "\\x" ++ hex2 c) ∧
    walk_string2_char 0 = "" ∧
    walk_string2 "" [65, 10, 34] = "\"A\\n\\\"\"" := by
  refine ⟨by decide, ?_, ?_, by decide, by decide⟩
  · intro c hp h92 h34
    have h32 : 32 ≤ c ∧ c ≤ 126 := by
      simpa [isprint_byte, Bool.and_eq_true, decide_eq_true_eq] using hp
    have h10 : c ≠ 10 := by omega
    have h13 : c ≠ 13 := by omega
    have h9 : c ≠ 9 := by omega
    simp [walk_string2_char, h10, h13, h9, h92, h34, hp]
  · intro c hp h0 h10 h13 h9
    have h92 : c ≠ 92 := by
      intro h
      subst h
      simp [isprint_byte] at hp
    have h34 : c ≠ 34 := by
      intro h
      subst h
      simp [isprint_byte] at hp
    simp [walk_string2_char, h10, h13, h9, h92, h34, hp, h0]

/-- Witness for the amended C6: the bell byte 7 renders as its hex escape. -/
theorem walk_string2_escapes_witness :
    walk_string2_char 7 = "\\x" ++ hex2 7 :=
  walk_string2_escapes.2.2.1 7 (by decide) (by decide) (by decide)
    (by decide) (by decide)

end shape
